import Mathlib

/-!
Shallow embedding of the escrow program's instruction processor
(`src/program/src/processor.rs`) and the interfaces it relies on, together
with theorems settling the specification's claims about it.

The processor itself is translated directly from the source.  The pieces the
processor uses but whose code is not part of the repository's sources — the
packed escrow-record codec, the token collaborator's `transfer` /
`set_authority` / `close_account` operations, the rent rule and the
program-derived-address function — are modelled from the specification's
description of their interfaces; each such definition says so in its doc
comment.

Machine integers are `Nat` with explicit bounds against `2 ^ 64` where the
source uses checked `u64` arithmetic.  Fallible operations return `Except`.
A whole instruction run is a `RunResult` that, on failure, records the
store and the delegated-call log as they stood at the failure point; the
host-level view (`process_init_escrow`, `process_exchange`) applies the
host's all-or-nothing transaction rule on top of it.
-/

namespace EscrowSpec

/-- Upper bound of `u64`: arithmetic in the source is 64-bit. -/
def u64Bound : Nat := 2 ^ 64

/-- Addresses are modelled as naturals; only equality of keys matters. -/
abbrev Pubkey := Nat

/-- The error kinds the processor and the token collaborator surface:
the program's own error enumeration plus the host's `ProgramError` variants
used by the source, plus the token collaborator's errors (modelled from the
spec, which says collaborator errors such as insufficient balance propagate
unmodified). -/
inductive Err where
  | missingRequiredSignature
  | incorrectProgramId
  | invalidAccountData
  | accountAlreadyInitialized
  | uninitializedAccount
  | notEnoughAccountKeys
  | notRentExempt
  | expectedAmountMismatch
  | amountOverflow
  | insufficientFunds
  | ownerMismatch
  | tokenOverflow
  | nonNativeHasBalance
  | accountNotFound
  | invalidRentSysvar
  deriving DecidableEq, Repr

/-- Equality of `Except` results is decidable when both sides are. -/
instance {ε α : Type} [DecidableEq ε] [DecidableEq α] :
    DecidableEq (Except ε α) := fun a b =>
  match a, b with
  | .error e, .error f =>
      if h : e = f then .isTrue (by rw [h])
      else .isFalse (by intro hh; cases hh; exact h rfl)
  | .ok x, .ok y =>
      if h : x = y then .isTrue (by rw [h])
      else .isFalse (by intro hh; cases hh; exact h rfl)
  | .error _, .ok _ => .isFalse (by intro hh; cases hh)
  | .ok _, .error _ => .isFalse (by intro hh; cases hh)

/-- The escrow record, field for field as the processor populates and reads
it (`state.rs` is outside the sources; the field list is §3 of the spec and
the processor's own accesses). -/
structure Escrow where
  is_initialized : Bool
  initializer_pubkey : Pubkey
  temp_token_account_pubkey : Pubkey
  initializer_token_to_receive_account_pubkey : Pubkey
  expected_amount : Nat
  deriving DecidableEq, Repr

/-- Modelled from the spec: the rent rule is a host-enforced minimum balance
proportional to data size; any monotone threshold models it. -/
structure Rent where
  lamports_per_byte : Nat
  deriving DecidableEq, Repr

/-- Modelled from the spec: an account is rent-exempt when its lamports meet
the minimum for its data size. -/
def Rent.is_exempt (r : Rent) (lamports : Nat) (data_len : Nat) : Bool :=
  decide (r.lamports_per_byte * data_len ≤ lamports)

/-- The parsed form of a token-collaborator account, as the processor uses
it: a balance and an owner-authority (`spl_token::state::Account` is outside
the sources; spec §6 fixes its role). -/
structure TokenAccount where
  amount : Nat
  owner : Pubkey
  deriving DecidableEq, Repr

/-- An account's data, in parsed form.  `token` is data the token
collaborator's codec accepts, `escrowData` is data the escrow record codec
accepts, `rentSysvar` is the rent sysvar's data, `empty` is a zero-length
buffer and `other` any other unparsable buffer. -/
inductive AccountData where
  | empty
  | token (amount : Nat) (owner : Pubkey)
  | escrowData (e : Escrow)
  | rentSysvar (r : Rent)
  | other
  deriving DecidableEq, Repr

/-- Data length of each buffer kind: 0 for empty, the token account's packed
size, the escrow record's packed size 1 + 32 + 32 + 32 + 8 (spec §6), the
rent sysvar's size. -/
def AccountData.data_len : AccountData → Nat
  | .empty => 0
  | .token _ _ => 165
  | .escrowData _ => 105
  | .rentSysvar _ => 17
  | .other => 0

/-- A host account: lamport balance, owning program, data. -/
structure Account where
  lamports : Nat
  owner : Pubkey
  data : AccountData
  deriving DecidableEq, Repr

/-- The host's account table for one call, keyed by address (duplicate
positions in the account list alias the same entry). -/
abbrev Store := List (Pubkey × Account)

/-- Look up an account by key (first match). -/
def Store.get : Store → Pubkey → Option Account
  | [], _ => none
  | (k', a) :: rest, k => if k' = k then some a else Store.get rest k

/-- Overwrite the account stored under a key (first match; absent keys are
left alone — the processor only writes keys it has read). -/
def Store.set : Store → Pubkey → Account → Store
  | [], _, _ => []
  | (k', a') :: rest, k, a =>
      if k' = k then (k', a) :: rest else (k', a') :: Store.set rest k a

/-- Fetch an account that the call operates on; in the host every named
account is present, so absence is a model-level error. -/
def Store.read (s : Store) (k : Pubkey) : Except Err Account :=
  match Store.get s k with
  | none => .error .accountNotFound
  | some a => .ok a

/-- One position of the instruction's account list: the address and the
signer flag, as `AccountInfo` exposes them to the processor. -/
structure Meta where
  key : Pubkey
  is_signer : Bool
  deriving DecidableEq, Repr

/-- Modelled from the spec: the token collaborator's codec accepts exactly
the token-account buffers; anything else is invalid account data. -/
def TokenAccount.unpack : AccountData → Except Err TokenAccount
  | .token amount owner => .ok ⟨amount, owner⟩
  | _ => .error .invalidAccountData

/-- Modelled from the spec: decoding an escrow record without the
initialized check (`Escrow::unpack_unchecked`); the codec accepts exactly
the escrow-record buffers. -/
def Escrow.unpack_unchecked : AccountData → Except Err Escrow
  | .escrowData e => .ok e
  | _ => .error .invalidAccountData

/-- Modelled from the spec: `Escrow::unpack` decodes and then requires the
record to be initialized (spec §8: a destroyed record no longer validates
as initialized). -/
def Escrow.unpack (d : AccountData) : Except Err Escrow :=
  match Escrow.unpack_unchecked d with
  | .error e => .error e
  | .ok e => if e.is_initialized then .ok e else .error .uninitializedAccount

/-- Modelled from the spec: reading the rent rule out of the rent sysvar
account (`Rent::from_account_info`). -/
def Rent.from_account_data : AccountData → Except Err Rent
  | .rentSysvar r => .ok r
  | _ => .error .invalidRentSysvar

/-- Modelled from the spec: the token collaborator program's fixed identity
(`spl_token::id()`). -/
def spl_token_id : Pubkey := 2 ^ 69 + 1

/-- Modelled from the spec: `Pubkey::find_program_address` with the fixed
seed is a deterministic pure function of the program identity yielding a
keyless derived address and a bump nonce; the concrete hash is external, so
a fixed injective pure function models it. -/
def find_program_address (program_id : Pubkey) : Pubkey × Nat :=
  (2 ^ 70 + program_id, 255)

/-- Checked 64-bit addition, as Rust's `u64::checked_add` on in-range
inputs: the exact sum when it is representable, `none` on overflow. -/
def checked_add (a b : Nat) : Option Nat :=
  if a + b < u64Bound then some (a + b) else none

/-- A delegated sub-instruction sent to the token collaborator, with the
authorizer recorded (spec §6 lists exactly these operations). -/
inductive TokenInstr where
  | transfer (source dest authority : Pubkey) (amount : Nat)
  | setAuthority (account new_authority current_authority : Pubkey)
  | closeAccount (account dest authority : Pubkey)
  deriving DecidableEq, Repr

/-- Modelled from the spec: the token collaborator's semantics at its
interface.  `transfer` moves an exact integer quantity, requiring the
authorizer to own the source, sufficient balance, and a representable
destination balance; `setAuthority` reassigns the owner-authority;
`closeAccount` requires an empty token balance, credits the account's
lamports to the destination and zeroes the account. -/
def applyTokenInstr (s : Store) : TokenInstr → Except Err Store
  | .transfer source dest authority amount =>
      match Store.read s source with
      | .error e => .error e
      | .ok src =>
        match TokenAccount.unpack src.data with
        | .error e => .error e
        | .ok srcTok =>
          if srcTok.owner ≠ authority then .error .ownerMismatch
          else if srcTok.amount < amount then .error .insufficientFunds
          else
            let s1 := Store.set s source
              { src with data := .token (srcTok.amount - amount) srcTok.owner }
            match Store.read s1 dest with
            | .error e => .error e
            | .ok dst =>
              match TokenAccount.unpack dst.data with
              | .error e => .error e
              | .ok dstTok =>
                if u64Bound ≤ dstTok.amount + amount then .error .tokenOverflow
                else .ok (Store.set s1 dest
                  { dst with data := .token (dstTok.amount + amount) dstTok.owner })
  | .setAuthority account new_authority current_authority =>
      match Store.read s account with
      | .error e => .error e
      | .ok acc =>
        match TokenAccount.unpack acc.data with
        | .error e => .error e
        | .ok tok =>
          if tok.owner ≠ current_authority then .error .ownerMismatch
          else .ok (Store.set s account
            { acc with data := .token tok.amount new_authority })
  | .closeAccount account dest authority =>
      match Store.read s account with
      | .error e => .error e
      | .ok acc =>
        match TokenAccount.unpack acc.data with
        | .error e => .error e
        | .ok tok =>
          if tok.owner ≠ authority then .error .ownerMismatch
          else if tok.amount ≠ 0 then .error .nonNativeHasBalance
          else
            match Store.read s dest with
            | .error e => .error e
            | .ok dst =>
              if u64Bound ≤ dst.lamports + acc.lamports then .error .tokenOverflow
              else
                let s1 := Store.set s dest
                  { dst with lamports := dst.lamports + acc.lamports }
                match Store.read s1 account with
                | .error e => .error e
                | .ok acc1 =>
                  .ok (Store.set s1 account
                    { acc1 with lamports := 0, data := .empty })

/-- The outcome of one instruction run before the host's rollback: on
failure it keeps the store and the issued delegated-call log as they stood
when the error was returned. -/
inductive RunResult where
  | success (s : Store) (log : List TokenInstr)
  | failure (e : Err) (s : Store) (log : List TokenInstr)
  deriving DecidableEq, Repr

/-- The store a run left behind, success or failure (pre-rollback view). -/
def RunResult.store : RunResult → Store
  | .success s _ => s
  | .failure _ s _ => s

/-- What `process_init_escrow`'s validation prefix (processor lines 42–66)
establishes before the first write: the five account positions it consumed,
the remaining positions, the escrow account as read, and its decoded
not-yet-initialized record. -/
structure InitCtx where
  initializer : Meta
  temp_token_account : Meta
  token_to_receive_account : Meta
  escrow_meta : Meta
  rent_meta : Meta
  rest : List Meta
  escrow_account : Account
  escrow_info : Escrow
  deriving DecidableEq, Repr

/-- The validation prefix of `process_init_escrow`, translated check for
check in source order: fetch the initializer and require its signature;
fetch the temp account and the receiving account and require the latter to
be owned by the token program; fetch the escrow account and the rent sysvar,
read the rent rule, and require the escrow account rent-exempt; decode the
record without the initialized check and require it uninitialized.  Reads
only; the first failure is returned. -/
def init_validate (accounts : List Meta) (s : Store) : Except Err InitCtx :=
  match accounts with
  | [] => .error .notEnoughAccountKeys
  | initializer :: r1 =>
    if initializer.is_signer = false then .error .missingRequiredSignature
    else match r1 with
    | temp_token_account :: token_to_receive_account :: r3 =>
      match Store.read s token_to_receive_account.key with
      | .error e => .error e
      | .ok recvAcc =>
        if recvAcc.owner ≠ spl_token_id then .error .incorrectProgramId
        else match r3 with
        | escrow_meta :: rent_meta :: r5 =>
          match Store.read s rent_meta.key with
          | .error e => .error e
          | .ok rentAcc =>
            match Rent.from_account_data rentAcc.data with
            | .error e => .error e
            | .ok rent =>
              match Store.read s escrow_meta.key with
              | .error e => .error e
              | .ok escAcc =>
                if Rent.is_exempt rent escAcc.lamports
                    (AccountData.data_len escAcc.data) = false then
                  .error .notRentExempt
                else
                  match Escrow.unpack_unchecked escAcc.data with
                  | .error e => .error e
                  | .ok escrow_info =>
                    if escrow_info.is_initialized then
                      .error .accountAlreadyInitialized
                    else
                      .ok { initializer := initializer,
                            temp_token_account := temp_token_account,
                            token_to_receive_account := token_to_receive_account,
                            escrow_meta := escrow_meta,
                            rent_meta := rent_meta,
                            rest := r5,
                            escrow_account := escAcc,
                            escrow_info := escrow_info }
        | _ => .error .notEnoughAccountKeys
    | _ => .error .notEnoughAccountKeys

/-- `process_init_escrow` (processor lines 37–101), raw view: after the
validation prefix, populate the record with the three supplied keys and the
instruction amount, mark it initialized and persist it; then fetch the token
program position and issue the delegated `set_authority` call handing the
temp account's owner-authority to the derived address, signed by the
initializer.  A failure keeps the store and log as they stood. -/
def process_init_escrow_raw (accounts : List Meta) (amount : Nat)
    (program_id : Pubkey) (s0 : Store) : RunResult :=
  match init_validate accounts s0 with
  | .error e => .failure e s0 []
  | .ok ctx =>
    let newInfo : Escrow :=
      { is_initialized := true,
        initializer_pubkey := ctx.initializer.key,
        temp_token_account_pubkey := ctx.temp_token_account.key,
        initializer_token_to_receive_account_pubkey :=
          ctx.token_to_receive_account.key,
        expected_amount := amount }
    let s1 := Store.set s0 ctx.escrow_meta.key
      { ctx.escrow_account with data := .escrowData newInfo }
    let pda := (find_program_address program_id).1
    match ctx.rest with
    | [] => .failure .notEnoughAccountKeys s1 []
    | _token_program :: _ =>
      let ix := TokenInstr.setAuthority ctx.temp_token_account.key pda
        ctx.initializer.key
      match applyTokenInstr s1 ix with
      | .error e => .failure e s1 [ix]
      | .ok s2 => .success s2 [ix]

/-- `process_init_escrow` as the caller observes it: the host's
all-or-nothing rule rolls every failure back to the initial store. -/
def process_init_escrow (accounts : List Meta) (amount : Nat)
    (program_id : Pubkey) (s0 : Store) : Option Err × Store :=
  match process_init_escrow_raw accounts amount program_id s0 with
  | .success s _ => (none, s)
  | .failure e _ _ => (some e, s0)

/-- What `process_exchange`'s validation prefix (processor lines 105–146)
establishes before the first delegated call: the eight account positions it
consumed, the remaining positions, the temp account's decoded token state
(whose balance is read once here and reused), and the decoded escrow
record. -/
structure ExCtx where
  taker : Meta
  takers_sending : Meta
  takers_receiving : Meta
  temp : Meta
  initializers_main : Meta
  initializers_receiving : Meta
  escrow_meta : Meta
  token_program : Meta
  rest : List Meta
  tempTok : TokenAccount
  escrow_info : Escrow
  deriving DecidableEq, Repr

/-- The validation prefix of `process_exchange`, translated check for check
in source order: fetch the taker and require its signature; fetch the
taker's sending and receiving accounts and the temp account; decode the
temp account's token state; require the asserted amount to equal its live
balance; fetch the initializer's main and receiving accounts and the escrow
account; decode the record (which requires it initialized); require the
record's three stored addresses to equal the supplied keys; fetch the token
program position.  Reads only; the first failure is returned. -/
def exchange_validate (accounts : List Meta) (amount_expected_by_taker : Nat)
    (s : Store) : Except Err ExCtx :=
  match accounts with
  | [] => .error .notEnoughAccountKeys
  | taker :: r1 =>
    if taker.is_signer = false then .error .missingRequiredSignature
    else match r1 with
    | takers_sending :: takers_receiving :: temp :: r4 =>
      match Store.read s temp.key with
      | .error e => .error e
      | .ok tempAcc =>
        match TokenAccount.unpack tempAcc.data with
        | .error e => .error e
        | .ok tempTok =>
          if amount_expected_by_taker ≠ tempTok.amount then
            .error .expectedAmountMismatch
          else match r4 with
          | initializers_main :: initializers_receiving :: escrow_meta :: r7 =>
            match Store.read s escrow_meta.key with
            | .error e => .error e
            | .ok escAcc =>
              match Escrow.unpack escAcc.data with
              | .error e => .error e
              | .ok escrow_info =>
                if escrow_info.temp_token_account_pubkey ≠ temp.key then
                  .error .invalidAccountData
                else if escrow_info.initializer_pubkey ≠ initializers_main.key then
                  .error .invalidAccountData
                else if escrow_info.initializer_token_to_receive_account_pubkey
                    ≠ initializers_receiving.key then
                  .error .invalidAccountData
                else match r7 with
                | [] => .error .notEnoughAccountKeys
                | token_program :: r8 =>
                  .ok { taker := taker,
                        takers_sending := takers_sending,
                        takers_receiving := takers_receiving,
                        temp := temp,
                        initializers_main := initializers_main,
                        initializers_receiving := initializers_receiving,
                        escrow_meta := escrow_meta,
                        token_program := token_program,
                        rest := r8,
                        tempTok := tempTok,
                        escrow_info := escrow_info }
          | _ => .error .notEnoughAccountKeys
    | _ => .error .notEnoughAccountKeys

/-- The final writes of `process_exchange` (processor lines 207–213): credit
the escrow account's lamports to the initializer's main account with checked
addition, failing closed with `amountOverflow`; then zero the escrow
account's lamports and clear its data. -/
def credit_escrow_lamports (s : Store) (im_key esc_key : Pubkey) :
    Except Err Store :=
  match Store.read s im_key with
  | .error e => .error e
  | .ok im =>
    match Store.read s esc_key with
    | .error e => .error e
    | .ok esc =>
      match checked_add im.lamports esc.lamports with
      | none => .error .amountOverflow
      | some v =>
        let s1 := Store.set s im_key { im with lamports := v }
        match Store.read s1 esc_key with
        | .error e => .error e
        | .ok esc1 =>
          .ok (Store.set s1 esc_key { esc1 with lamports := 0, data := .empty })

/-- `process_exchange` (processor lines 103–218), raw view: after the
validation prefix, issue in order (1) a delegated transfer of the record's
`expected_amount` from the taker's sending account to the initializer's
receiving account authorized by the taker, (2) — after fetching the derived
address position — a delegated transfer of the temp account's balance as
read at validation time to the taker's receiving account authorized by the
derived address, (3) a delegated close of the temp account towards the
initializer's main account authorized by the derived address, then (4) the
checked lamport credit and record destruction.  A failure keeps the store
and log as they stood. -/
def process_exchange_raw (accounts : List Meta) (amount_expected_by_taker : Nat)
    (program_id : Pubkey) (s0 : Store) : RunResult :=
  match exchange_validate accounts amount_expected_by_taker s0 with
  | .error e => .failure e s0 []
  | .ok ctx =>
    let pda := (find_program_address program_id).1
    let ix1 := TokenInstr.transfer ctx.takers_sending.key
      ctx.initializers_receiving.key ctx.taker.key ctx.escrow_info.expected_amount
    match applyTokenInstr s0 ix1 with
    | .error e => .failure e s0 [ix1]
    | .ok s1 =>
      match ctx.rest with
      | [] => .failure .notEnoughAccountKeys s1 [ix1]
      | _pda_account :: _ =>
        let ix2 := TokenInstr.transfer ctx.temp.key ctx.takers_receiving.key
          pda ctx.tempTok.amount
        match applyTokenInstr s1 ix2 with
        | .error e => .failure e s1 [ix1, ix2]
        | .ok s2 =>
          let ix3 := TokenInstr.closeAccount ctx.temp.key
            ctx.initializers_main.key pda
          match applyTokenInstr s2 ix3 with
          | .error e => .failure e s2 [ix1, ix2, ix3]
          | .ok s3 =>
            match credit_escrow_lamports s3 ctx.initializers_main.key
                ctx.escrow_meta.key with
            | .error e => .failure e s3 [ix1, ix2, ix3]
            | .ok s4 => .success s4 [ix1, ix2, ix3]

/-- `process_exchange` as the caller observes it: the host's all-or-nothing
rule rolls every failure back to the initial store. -/
def process_exchange (accounts : List Meta) (amount_expected_by_taker : Nat)
    (program_id : Pubkey) (s0 : Store) : Option Err × Store :=
  match process_exchange_raw accounts amount_expected_by_taker program_id s0 with
  | .success s _ => (none, s)
  | .failure e _ _ => (some e, s0)

/-! ### Concrete scenario used by counterexamples and witnesses

The spec's §8 scenario: the initializer locked 3 units of X demanding 5
units of Y.  Keys: 1 taker, 2 taker's Y-sending, 3 taker's X-receiving,
4 temp holding, 5 initializer main, 6 initializer's Y-receiving, 7 escrow
record, 8 token program, 9 derived-address account; program id 100. -/

/-- The derived address for program id 100. -/
def exPda : Pubkey := (find_program_address 100).1

/-- Store before the example exchange: the temp account holds 3 X under the
derived address's authority, the record demands 5 Y. -/
def exStore : Store :=
  [ (2, ⟨10, spl_token_id, .token 50 1⟩),
    (3, ⟨10, spl_token_id, .token 0 1⟩),
    (4, ⟨20, spl_token_id, .token 3 exPda⟩),
    (5, ⟨100, 0, .empty⟩),
    (6, ⟨10, spl_token_id, .token 7 5⟩),
    (7, ⟨30, 100, .escrowData ⟨true, 5, 4, 6, 5⟩⟩) ]

/-- Account list for the example exchange, taker signing. -/
def exAccounts : List Meta :=
  [⟨1, true⟩, ⟨2, false⟩, ⟨3, false⟩, ⟨4, false⟩, ⟨5, false⟩,
   ⟨6, false⟩, ⟨7, false⟩, ⟨8, false⟩, ⟨9, false⟩]

/-- The same account list with the taker's signature missing. -/
def exAccountsNoSig : List Meta :=
  [⟨1, false⟩, ⟨2, false⟩, ⟨3, false⟩, ⟨4, false⟩, ⟨5, false⟩,
   ⟨6, false⟩, ⟨7, false⟩, ⟨8, false⟩, ⟨9, false⟩]

/-- Store before the example init: blank rent-exempt record, temp account
holding 3 X still under the initializer's authority.  Keys: 10 initializer,
11 temp, 12 initializer's Y-receiving, 13 escrow record, 14 rent sysvar,
15 token program. -/
def exInitStore : Store :=
  [ (11, ⟨10, spl_token_id, .token 3 10⟩),
    (12, ⟨10, spl_token_id, .token 0 10⟩),
    (13, ⟨300, 100, .escrowData ⟨false, 0, 0, 0, 0⟩⟩),
    (14, ⟨1, 0, .rentSysvar ⟨2⟩⟩) ]

/-- Account list for the example init, initializer signing. -/
def exInitAccounts : List Meta :=
  [⟨10, true⟩, ⟨11, false⟩, ⟨12, false⟩, ⟨13, false⟩, ⟨14, false⟩, ⟨15, false⟩]

/-- Store after the example exchange: the taker's receiving account gained
the 3 escrowed X tokens, the initializer's receiving account gained the 5
demanded Y tokens, the holding account is closed and the record destroyed,
its lamports (and the holding account's) landing on the initializer. -/
def exFinalStore : Store :=
  [ (2, ⟨10, spl_token_id, .token 45 1⟩),
    (3, ⟨10, spl_token_id, .token 3 1⟩),
    (4, ⟨0, spl_token_id, .empty⟩),
    (5, ⟨150, 0, .empty⟩),
    (6, ⟨10, spl_token_id, .token 12 5⟩),
    (7, ⟨0, 100, .empty⟩) ]

/-- The delegated calls of the example exchange. -/
def exLog : List TokenInstr :=
  [.transfer 2 6 1 5, .transfer 4 3 exPda 3, .closeAccount 4 5 exPda]

/-- Store after the example init: the record is populated and the temp
account's owner-authority is now the derived address. -/
def exInitFinalStore : Store :=
  [ (11, ⟨10, spl_token_id, .token 3 exPda⟩),
    (12, ⟨10, spl_token_id, .token 0 10⟩),
    (13, ⟨300, 100, .escrowData ⟨true, 10, 11, 12, 5⟩⟩),
    (14, ⟨1, 0, .rentSysvar ⟨2⟩⟩) ]

/-- The delegated call of the example init. -/
def exInitLog : List TokenInstr := [.setAuthority 11 exPda 10]

/-- The example init store with the record already initialized. -/
def exInitStoreInited : Store :=
  [ (11, ⟨10, spl_token_id, .token 3 10⟩),
    (12, ⟨10, spl_token_id, .token 0 10⟩),
    (13, ⟨300, 100, .escrowData ⟨true, 10, 11, 12, 5⟩⟩),
    (14, ⟨1, 0, .rentSysvar ⟨2⟩⟩) ]

/-- A store whose initializer-main and escrow accounts have lamports that
overflow 64 bits when added. -/
def ovStore : Store :=
  [ (20, ⟨u64Bound - 1, 0, .empty⟩),
    (21, ⟨5, 100, .escrowData ⟨true, 1, 2, 3, 4⟩⟩) ]

/-! ### Helper lemmas about the store and the validation prefixes -/

theorem Store.get_set_of_ne (s : Store) (k k' : Pubkey) (a : Account)
    (h : k ≠ k') : Store.get (Store.set s k a) k' = Store.get s k' := by
  induction s with
  | nil => rfl
  | cons p rest ih =>
    obtain ⟨pk, pa⟩ := p
    by_cases hk : pk = k
    · subst hk
      simp [Store.set, Store.get, h]
    · simp [Store.set, Store.get, hk]
      by_cases hk' : pk = k'
      · simp [hk']
      · simp [hk', ih]

theorem Store.get_set_self (s : Store) (k : Pubkey) (a b : Account)
    (h : Store.get s k = some b) : Store.get (Store.set s k a) k = some a := by
  induction s with
  | nil => simp [Store.get] at h
  | cons p rest ih =>
    obtain ⟨pk, pa⟩ := p
    by_cases hk : pk = k
    · subst hk
      simp [Store.set, Store.get]
    · simp [Store.get, hk] at h
      simp [Store.set, Store.get, hk, ih h]

theorem Store.read_ok {s : Store} {k : Pubkey} {a : Account} :
    Store.read s k = .ok a ↔ Store.get s k = some a := by
  unfold Store.read
  cases Store.get s k <;> simp

theorem transfer_ok {s s' : Store} {src dst auth : Pubkey} {amt : Nat}
    (h : applyTokenInstr s (.transfer src dst auth amt) = .ok s') :
    ∃ srcAcc srcTok dstAcc dstTok,
      Store.get s src = some srcAcc ∧
      TokenAccount.unpack srcAcc.data = .ok srcTok ∧
      srcTok.owner = auth ∧ amt ≤ srcTok.amount ∧
      Store.get (Store.set s src
        { srcAcc with data := .token (srcTok.amount - amt) srcTok.owner }) dst
        = some dstAcc ∧
      TokenAccount.unpack dstAcc.data = .ok dstTok ∧
      dstTok.amount + amt < u64Bound ∧
      s' = Store.set (Store.set s src
        { srcAcc with data := .token (srcTok.amount - amt) srcTok.owner }) dst
        { dstAcc with data := .token (dstTok.amount + amt) dstTok.owner } := by
  simp only [applyTokenInstr] at h
  repeat (first | exact Except.noConfusion h | split at h | simp only [] at h)
  rename_i x1 srcAcc hread x2 srcTok hunp hown hfunds x3 dstAcc hread2 x4 dstTok hunp2 hover
  injection h with h
  exact ⟨srcAcc, srcTok, dstAcc, dstTok, Store.read_ok.mp hread, hunp,
    of_not_not hown, by omega, Store.read_ok.mp hread2, hunp2, by omega, h.symm⟩

theorem setAuthority_ok {s s' : Store} {a n c : Pubkey}
    (h : applyTokenInstr s (.setAuthority a n c) = .ok s') :
    ∃ acc tok,
      Store.get s a = some acc ∧
      TokenAccount.unpack acc.data = .ok tok ∧
      tok.owner = c ∧
      s' = Store.set s a { acc with data := .token tok.amount n } := by
  simp only [applyTokenInstr] at h
  repeat (first | exact Except.noConfusion h | split at h | simp only [] at h)
  rename_i x1 acc hread x2 tok hunp hown
  injection h with h
  exact ⟨acc, tok, Store.read_ok.mp hread, hunp, of_not_not hown, h.symm⟩

theorem close_ok {s s' : Store} {a d auth : Pubkey}
    (h : applyTokenInstr s (.closeAccount a d auth) = .ok s') :
    ∃ acc tok dstAcc acc1,
      Store.get s a = some acc ∧
      TokenAccount.unpack acc.data = .ok tok ∧
      tok.owner = auth ∧ tok.amount = 0 ∧
      Store.get s d = some dstAcc ∧
      dstAcc.lamports + acc.lamports < u64Bound ∧
      Store.get (Store.set s d
        { dstAcc with lamports := dstAcc.lamports + acc.lamports }) a = some acc1 ∧
      s' = Store.set (Store.set s d
        { dstAcc with lamports := dstAcc.lamports + acc.lamports }) a
        { acc1 with lamports := 0, data := .empty } := by
  simp only [applyTokenInstr] at h
  repeat (first | exact Except.noConfusion h | split at h | simp only [] at h)
  rename_i x1 acc hread x2 tok hunp hown hbal x3 dstAcc hread2 hover x4 acc1 hread3
  injection h with h
  exact ⟨acc, tok, dstAcc, acc1, Store.read_ok.mp hread, hunp, of_not_not hown,
    of_not_not hbal, Store.read_ok.mp hread2, by omega, Store.read_ok.mp hread3,
    h.symm⟩

theorem checked_add_some {a b v : Nat} (h : checked_add a b = some v) :
    v = a + b ∧ a + b < u64Bound := by
  unfold checked_add at h
  split at h
  · exact ⟨(Option.some.injEq _ _ ▸ h).symm, by assumption⟩
  · exact Option.noConfusion h

theorem credit_ok {s s' : Store} {im_key esc_key : Pubkey}
    (h : credit_escrow_lamports s im_key esc_key = .ok s') :
    ∃ im esc v esc1,
      Store.get s im_key = some im ∧
      Store.get s esc_key = some esc ∧
      checked_add im.lamports esc.lamports = some v ∧
      Store.get (Store.set s im_key { im with lamports := v }) esc_key
        = some esc1 ∧
      s' = Store.set (Store.set s im_key { im with lamports := v }) esc_key
        { esc1 with lamports := 0, data := .empty } := by
  unfold credit_escrow_lamports at h
  repeat (first | exact Except.noConfusion h | split at h | simp only [] at h)
  rename_i x1 im hrim x2 esc hresc x3 v hadd x4 esc1 hre1
  injection h with h
  exact ⟨im, esc, v, esc1, Store.read_ok.mp hrim, Store.read_ok.mp hresc, hadd,
    Store.read_ok.mp hre1, h.symm⟩

theorem exchange_validate_ok {accounts : List Meta} {amt : Nat} {s : Store}
    {ctx : ExCtx} (h : exchange_validate accounts amt s = .ok ctx) :
    accounts = ctx.taker :: ctx.takers_sending :: ctx.takers_receiving ::
      ctx.temp :: ctx.initializers_main :: ctx.initializers_receiving ::
      ctx.escrow_meta :: ctx.token_program :: ctx.rest ∧
    ctx.taker.is_signer = true ∧
    (∃ acc, Store.get s ctx.temp.key = some acc ∧
      TokenAccount.unpack acc.data = .ok ctx.tempTok) ∧
    amt = ctx.tempTok.amount ∧
    (∃ acc, Store.get s ctx.escrow_meta.key = some acc ∧
      Escrow.unpack acc.data = .ok ctx.escrow_info) ∧
    ctx.escrow_info.temp_token_account_pubkey = ctx.temp.key ∧
    ctx.escrow_info.initializer_pubkey = ctx.initializers_main.key ∧
    ctx.escrow_info.initializer_token_to_receive_account_pubkey =
      ctx.initializers_receiving.key := by
  unfold exchange_validate at h
  repeat split at h <;> try exact Except.noConfusion h
  injection h with h
  subst h
  simp_all [Store.read_ok]

theorem init_validate_ok {accounts : List Meta} {s : Store} {ctx : InitCtx}
    (h : init_validate accounts s = .ok ctx) :
    accounts = ctx.initializer :: ctx.temp_token_account ::
      ctx.token_to_receive_account :: ctx.escrow_meta :: ctx.rent_meta ::
      ctx.rest ∧
    ctx.initializer.is_signer = true ∧
    (∃ acc, Store.get s ctx.token_to_receive_account.key = some acc ∧
      acc.owner = spl_token_id) ∧
    (∃ rentAcc rent, Store.get s ctx.rent_meta.key = some rentAcc ∧
      Rent.from_account_data rentAcc.data = .ok rent ∧
      Rent.is_exempt rent ctx.escrow_account.lamports
        (AccountData.data_len ctx.escrow_account.data) = true) ∧
    Store.get s ctx.escrow_meta.key = some ctx.escrow_account ∧
    Escrow.unpack_unchecked ctx.escrow_account.data = .ok ctx.escrow_info ∧
    ctx.escrow_info.is_initialized = false := by
  unfold init_validate at h
  repeat split at h <;> try exact Except.noConfusion h
  injection h with h
  subst h
  simp_all [Store.read_ok]

/-- Inversion of a successful `process_exchange_raw` run: the validation
prefix accepted, and the four effect steps all succeeded in order, the log
being exactly the three delegated calls. -/
theorem process_exchange_raw_success {accounts : List Meta} {amt : Nat}
    {pid : Pubkey} {s0 s4 : Store} {log : List TokenInstr}
    (h : process_exchange_raw accounts amt pid s0 = .success s4 log) :
    ∃ ctx s1 s2 s3,
      exchange_validate accounts amt s0 = .ok ctx ∧
      ctx.rest ≠ [] ∧
      applyTokenInstr s0 (.transfer ctx.takers_sending.key
        ctx.initializers_receiving.key ctx.taker.key
        ctx.escrow_info.expected_amount) = .ok s1 ∧
      applyTokenInstr s1 (.transfer ctx.temp.key ctx.takers_receiving.key
        (find_program_address pid).1 ctx.tempTok.amount) = .ok s2 ∧
      applyTokenInstr s2 (.closeAccount ctx.temp.key
        ctx.initializers_main.key (find_program_address pid).1) = .ok s3 ∧
      credit_escrow_lamports s3 ctx.initializers_main.key
        ctx.escrow_meta.key = .ok s4 ∧
      log = [.transfer ctx.takers_sending.key ctx.initializers_receiving.key
               ctx.taker.key ctx.escrow_info.expected_amount,
             .transfer ctx.temp.key ctx.takers_receiving.key
               (find_program_address pid).1 ctx.tempTok.amount,
             .closeAccount ctx.temp.key ctx.initializers_main.key
               (find_program_address pid).1] := by
  unfold process_exchange_raw at h
  repeat (first | exact RunResult.noConfusion h | split at h | simp only [] at h)
  rename_i x4 ctx hval accs pm r1 hrest x3 s1 h1 x2 s2 h2 x1 s3 h3 x0 sF hcr
  injection h with hs hl
  subst hs
  exact ⟨ctx, s1, s2, s3, hval, by simp [hrest], h1, h2, h3, hcr, hl.symm⟩

/-- Inversion of a successful `process_init_escrow_raw` run: the validation
prefix accepted, the populated record was persisted, and the delegated
`set_authority` call succeeded; the log is exactly that one call. -/
theorem process_init_escrow_raw_success {accounts : List Meta} {amount : Nat}
    {pid : Pubkey} {s0 s2 : Store} {log : List TokenInstr}
    (h : process_init_escrow_raw accounts amount pid s0 = .success s2 log) :
    ∃ ctx,
      init_validate accounts s0 = .ok ctx ∧
      ctx.rest ≠ [] ∧
      applyTokenInstr
        (Store.set s0 ctx.escrow_meta.key
          ⟨ctx.escrow_account.lamports, ctx.escrow_account.owner,
           AccountData.escrowData
             ⟨true, ctx.initializer.key, ctx.temp_token_account.key,
              ctx.token_to_receive_account.key, amount⟩⟩)
        (.setAuthority ctx.temp_token_account.key (find_program_address pid).1
          ctx.initializer.key) = .ok s2 ∧
      log = [.setAuthority ctx.temp_token_account.key
               (find_program_address pid).1 ctx.initializer.key] := by
  unfold process_init_escrow_raw at h
  repeat (first | exact RunResult.noConfusion h | split at h | simp only [] at h)
  rename_i x1 ctx hval accs tp r1 hrest x0 sF hsa
  injection h with hs hl
  subst hs
  exact ⟨ctx, hval, by simp [hrest], hsa, hl.symm⟩

/-- A transfer leaves every account other than its source and destination
untouched. -/
theorem transfer_ok_get_other {s s' : Store} {src dst auth : Pubkey}
    {amt : Nat} {k : Pubkey}
    (h : applyTokenInstr s (.transfer src dst auth amt) = .ok s')
    (h1 : k ≠ src) (h2 : k ≠ dst) : Store.get s' k = Store.get s k := by
  obtain ⟨sa, st, da, dt, hga, hua, ho, hf, hgd, hud, hov, hs'⟩ := transfer_ok h
  subst hs'
  rw [Store.get_set_of_ne _ _ _ _ (Ne.symm h2),
    Store.get_set_of_ne _ _ _ _ (Ne.symm h1)]

/-- A transfer with distinct source and destination adds exactly its amount
to the destination balance and changes nothing else about the account. -/
theorem transfer_ok_get_dest {s s' : Store} {src dst auth : Pubkey}
    {amt : Nat}
    (h : applyTokenInstr s (.transfer src dst auth amt) = .ok s')
    (hne : src ≠ dst) :
    ∃ dstAcc dstTok, Store.get s dst = some dstAcc ∧
      TokenAccount.unpack dstAcc.data = .ok dstTok ∧
      Store.get s' dst = some ⟨dstAcc.lamports, dstAcc.owner,
        .token (dstTok.amount + amt) dstTok.owner⟩ := by
  obtain ⟨sa, st, da, dt, hga, hua, ho, hf, hgd, hud, hov, hs'⟩ := transfer_ok h
  subst hs'
  have hgd' : Store.get s dst = some da := by
    rw [Store.get_set_of_ne _ _ _ _ hne] at hgd
    exact hgd
  exact ⟨da, dt, hgd', hud, Store.get_set_self _ _ _ _ hgd⟩

/-- A transfer with distinct source and destination subtracts exactly its
amount from the source balance and changes nothing else about the
account. -/
theorem transfer_ok_get_source {s s' : Store} {src dst auth : Pubkey}
    {amt : Nat}
    (h : applyTokenInstr s (.transfer src dst auth amt) = .ok s')
    (hne : src ≠ dst) :
    ∃ srcAcc srcTok, Store.get s src = some srcAcc ∧
      TokenAccount.unpack srcAcc.data = .ok srcTok ∧
      amt ≤ srcTok.amount ∧
      Store.get s' src = some ⟨srcAcc.lamports, srcAcc.owner,
        .token (srcTok.amount - amt) srcTok.owner⟩ := by
  obtain ⟨sa, st, da, dt, hga, hua, ho, hf, hgd, hud, hov, hs'⟩ := transfer_ok h
  subst hs'
  refine ⟨sa, st, hga, hua, hf, ?_⟩
  rw [Store.get_set_of_ne _ _ _ _ (Ne.symm hne)]
  exact Store.get_set_self _ _ _ _ hga

/-- Closing an account leaves every account other than the closed one and
the lamport destination untouched. -/
theorem close_ok_get_other {s s' : Store} {a d auth : Pubkey} {k : Pubkey}
    (h : applyTokenInstr s (.closeAccount a d auth) = .ok s')
    (h1 : k ≠ a) (h2 : k ≠ d) : Store.get s' k = Store.get s k := by
  obtain ⟨acc, tok, dstAcc, acc1, hga, hua, ho, hz, hgd, hov, hg1, hs'⟩ := close_ok h
  subst hs'
  rw [Store.get_set_of_ne _ _ _ _ (Ne.symm h1),
    Store.get_set_of_ne _ _ _ _ (Ne.symm h2)]

/-- Closing an account credits the closed account's lamports to the
destination, leaving the destination's owner and data unchanged. -/
theorem close_ok_get_dest {s s' : Store} {a d auth : Pubkey}
    (h : applyTokenInstr s (.closeAccount a d auth) = .ok s')
    (hne : a ≠ d) :
    ∃ acc dstAcc, Store.get s a = some acc ∧
      Store.get s d = some dstAcc ∧
      dstAcc.lamports + acc.lamports < u64Bound ∧
      Store.get s' d = some ⟨dstAcc.lamports + acc.lamports, dstAcc.owner,
        dstAcc.data⟩ := by
  obtain ⟨acc, tok, dstAcc, acc1, hga, hua, ho, hz, hgd, hov, hg1, hs'⟩ := close_ok h
  subst hs'
  refine ⟨acc, dstAcc, hga, hgd, hov, ?_⟩
  rw [Store.get_set_of_ne _ _ _ _ hne]
  exact Store.get_set_self _ _ _ _ hgd

/-- The lamport credit leaves every account other than the initializer's
main account and the escrow account untouched. -/
theorem credit_ok_get_other {s s' : Store} {im_key esc_key : Pubkey}
    {k : Pubkey} (h : credit_escrow_lamports s im_key esc_key = .ok s')
    (h1 : k ≠ im_key) (h2 : k ≠ esc_key) :
    Store.get s' k = Store.get s k := by
  obtain ⟨im, esc, v, esc1, hgi, hge, hadd, hg1, hs'⟩ := credit_ok h
  subst hs'
  rw [Store.get_set_of_ne _ _ _ _ (Ne.symm h2),
    Store.get_set_of_ne _ _ _ _ (Ne.symm h1)]

/-- No token-collaborator call rewrites an account whose data is an escrow
record: such an account can only ever be the lamport destination of a
close, which leaves its data untouched. -/
theorem applyTokenInstr_preserves_escrowData {s s' : Store} {ix : TokenInstr}
    {k : Pubkey} {acc : Account} {e0 : Escrow}
    (h : applyTokenInstr s ix = .ok s') (hget : Store.get s k = some acc)
    (hdata : acc.data = .escrowData e0) :
    ∃ acc', Store.get s' k = some acc' ∧ acc'.data = .escrowData e0 := by
  cases ix with
  | transfer src dst auth amt =>
    obtain ⟨sa, st, da, dt, hga, hua, ho, hf, hgd, hud, hov, hs'⟩ := transfer_ok h
    by_cases hks : k = src
    · subst hks
      rw [hget] at hga
      injection hga with hga
      rw [←hga, hdata] at hua
      exact Except.noConfusion hua
    · by_cases hkd : k = dst
      · subst hkd
        rw [Store.get_set_of_ne _ _ _ _ (fun hh => hks hh.symm)] at hgd
        rw [hget] at hgd
        injection hgd with hgd
        rw [←hgd, hdata] at hud
        exact Except.noConfusion hud
      · rw [hs', Store.get_set_of_ne _ _ _ _ (Ne.symm hkd),
          Store.get_set_of_ne _ _ _ _ (Ne.symm hks), hget]
        exact ⟨acc, rfl, hdata⟩
  | setAuthority a n c =>
    obtain ⟨acc2, tok, hga, hua, ho, hs'⟩ := setAuthority_ok h
    by_cases hka : k = a
    · subst hka
      rw [hget] at hga
      injection hga with hga
      rw [←hga, hdata] at hua
      exact Except.noConfusion hua
    · rw [hs', Store.get_set_of_ne _ _ _ _ (Ne.symm hka), hget]
      exact ⟨acc, rfl, hdata⟩
  | closeAccount a d auth =>
    obtain ⟨acc2, tok, dstAcc, acc1, hga, hua, ho, hz, hgd, hov, hg1, hs'⟩ := close_ok h
    by_cases hka : k = a
    · subst hka
      rw [hget] at hga
      injection hga with hga
      rw [←hga, hdata] at hua
      exact Except.noConfusion hua
    · by_cases hkd : k = d
      · subst hkd
        rw [hget] at hgd
        injection hgd with hgd
        subst hgd
        rw [hs', Store.get_set_of_ne _ _ _ _ (Ne.symm hka)]
        exact ⟨_, Store.get_set_self _ _ _ _ hget, hdata⟩
      · rw [hs', Store.get_set_of_ne _ _ _ _ (Ne.symm hka),
          Store.get_set_of_ne _ _ _ _ (Ne.symm hkd), hget]
        exact ⟨acc, rfl, hdata⟩

/-- The final lamport credit either leaves an escrow-record account's data
unchanged or (when it is the escrow account being destroyed) clears it. -/
theorem credit_preserves_escrowData {s s' : Store} {im_key esc_key : Pubkey}
    {k : Pubkey} {acc : Account} {e0 : Escrow}
    (h : credit_escrow_lamports s im_key esc_key = .ok s')
    (hget : Store.get s k = some acc) (hdata : acc.data = .escrowData e0) :
    ∃ acc', Store.get s' k = some acc' ∧
      (acc'.data = .escrowData e0 ∨ acc'.data = .empty) := by
  obtain ⟨im, esc, v, esc1, hgi, hge, hadd, hg1, hs'⟩ := credit_ok h
  subst hs'
  by_cases hke : k = esc_key
  · subst hke
    exact ⟨_, Store.get_set_self _ _ _ _ hg1, Or.inr rfl⟩
  · rw [Store.get_set_of_ne _ _ _ _ (Ne.symm hke)]
    by_cases hki : k = im_key
    · subst hki
      rw [hget] at hgi
      injection hgi with hgi
      subst hgi
      exact ⟨_, Store.get_set_self _ _ _ _ hget, Or.inl hdata⟩
    · rw [Store.get_set_of_ne _ _ _ _ (Ne.symm hki), hget]
      exact ⟨acc, rfl, Or.inl hdata⟩

/-- C10: whenever `process_exchange`'s validation prefix fails (missing
taker signature, unparsable holding-account data, amount mismatch,
unparsable or mismatching escrow record, or a missing account), the raw run
returns that error with the store exactly as it was and an empty
delegated-call log — no token call was issued and nothing was written — and
the caller sees the error with the initial store. -/
theorem exchange_validation_failure_no_effects
    (accounts : List Meta) (amt : Nat) (pid : Pubkey) (s : Store) (e : Err)
    (h : exchange_validate accounts amt s = .error e) :
    process_exchange_raw accounts amt pid s = .failure e s [] ∧
    process_exchange accounts amt pid s = (some e, s) := by
  have hraw : process_exchange_raw accounts amt pid s = .failure e s [] := by
    unfold process_exchange_raw
    rw [h]
  refine ⟨hraw, ?_⟩
  unfold process_exchange
  rw [hraw]

/-- C6: `process_exchange` validates in source order, aborting at the first
failure with the stated error: a non-signing taker gives
`missingRequiredSignature`; with a signing taker and a parsed holding
account, an asserted amount differing from the live balance gives
`expectedAmountMismatch`; with those passed and a parsed record, any of the
three stored-address mismatches gives `invalidAccountData`.  In each case
nothing was written and no delegated call issued. -/
theorem exchange_validation_order :
    (∀ (m0 : Meta) (rest : List Meta) (amt : Nat) (pid : Pubkey) (s : Store),
      m0.is_signer = false →
      process_exchange_raw (m0 :: rest) amt pid s =
        .failure .missingRequiredSignature s []) ∧
    (∀ (m0 m1 m2 m3 : Meta) (rest : List Meta) (amt : Nat) (pid : Pubkey)
      (s : Store) (acc : Account) (tok : TokenAccount),
      m0.is_signer = true →
      Store.get s m3.key = some acc →
      TokenAccount.unpack acc.data = .ok tok →
      amt ≠ tok.amount →
      process_exchange_raw (m0 :: m1 :: m2 :: m3 :: rest) amt pid s =
        .failure .expectedAmountMismatch s []) ∧
    (∀ (m0 m1 m2 m3 m4 m5 m6 : Meta) (rest : List Meta) (amt : Nat)
      (pid : Pubkey) (s : Store) (acc eacc : Account) (tok : TokenAccount)
      (einfo : Escrow),
      m0.is_signer = true →
      Store.get s m3.key = some acc →
      TokenAccount.unpack acc.data = .ok tok →
      amt = tok.amount →
      Store.get s m6.key = some eacc →
      Escrow.unpack eacc.data = .ok einfo →
      (einfo.temp_token_account_pubkey ≠ m3.key ∨
       einfo.initializer_pubkey ≠ m4.key ∨
       einfo.initializer_token_to_receive_account_pubkey ≠ m5.key) →
      process_exchange_raw (m0 :: m1 :: m2 :: m3 :: m4 :: m5 :: m6 :: rest)
        amt pid s = .failure .invalidAccountData s []) := by
  refine ⟨?_, ?_, ?_⟩
  · intro m0 rest amt pid s hsig
    unfold process_exchange_raw exchange_validate
    simp [hsig]
  · intro m0 m1 m2 m3 rest amt pid s acc tok hsig hget hunp hne
    unfold process_exchange_raw exchange_validate
    simp [hsig, Store.read, hget, hunp, hne]
  · intro m0 m1 m2 m3 m4 m5 m6 rest amt pid s acc eacc tok einfo hsig hget
      hunp hamt hgete hunpe hmis
    unfold process_exchange_raw exchange_validate
    simp [hsig, Store.read, hget, hunp, hamt, hgete, hunpe]
    rcases hmis with hm | hm | hm <;> simp [hm]

/-- C7: `process_init_escrow` checks its four preconditions in source
order, aborting at the first failure with the stated error: missing
initializer signature gives `missingRequiredSignature`; a receiving account
not owned by the token program gives `incorrectProgramId`; an escrow
account that is not rent-exempt for its data size gives `notRentExempt`;
an already-initialized record gives `accountAlreadyInitialized`. -/
theorem init_escrow_validation_order :
    (∀ (m0 : Meta) (rest : List Meta) (amount : Nat) (pid : Pubkey) (s : Store),
      m0.is_signer = false →
      process_init_escrow_raw (m0 :: rest) amount pid s =
        .failure .missingRequiredSignature s []) ∧
    (∀ (m0 m1 m2 : Meta) (rest : List Meta) (amount : Nat) (pid : Pubkey)
      (s : Store) (racc : Account),
      m0.is_signer = true →
      Store.get s m2.key = some racc →
      racc.owner ≠ spl_token_id →
      process_init_escrow_raw (m0 :: m1 :: m2 :: rest) amount pid s =
        .failure .incorrectProgramId s []) ∧
    (∀ (m0 m1 m2 m3 m4 : Meta) (rest : List Meta) (amount : Nat)
      (pid : Pubkey) (s : Store) (racc rentAcc eacc : Account) (rent : Rent),
      m0.is_signer = true →
      Store.get s m2.key = some racc →
      racc.owner = spl_token_id →
      Store.get s m4.key = some rentAcc →
      Rent.from_account_data rentAcc.data = .ok rent →
      Store.get s m3.key = some eacc →
      Rent.is_exempt rent eacc.lamports (AccountData.data_len eacc.data) = false →
      process_init_escrow_raw (m0 :: m1 :: m2 :: m3 :: m4 :: rest) amount pid s =
        .failure .notRentExempt s []) ∧
    (∀ (m0 m1 m2 m3 m4 : Meta) (rest : List Meta) (amount : Nat)
      (pid : Pubkey) (s : Store) (racc rentAcc eacc : Account) (rent : Rent)
      (einfo : Escrow),
      m0.is_signer = true →
      Store.get s m2.key = some racc →
      racc.owner = spl_token_id →
      Store.get s m4.key = some rentAcc →
      Rent.from_account_data rentAcc.data = .ok rent →
      Store.get s m3.key = some eacc →
      Rent.is_exempt rent eacc.lamports (AccountData.data_len eacc.data) = true →
      Escrow.unpack_unchecked eacc.data = .ok einfo →
      einfo.is_initialized = true →
      process_init_escrow_raw (m0 :: m1 :: m2 :: m3 :: m4 :: rest) amount pid s =
        .failure .accountAlreadyInitialized s []) := by
  refine ⟨?_, ?_, ?_, ?_⟩
  · intro m0 rest amount pid s hsig
    unfold process_init_escrow_raw init_validate
    simp [hsig]
  · intro m0 m1 m2 rest amount pid s racc hsig hget hown
    unfold process_init_escrow_raw init_validate
    simp [hsig, Store.read, hget, hown]
  · intro m0 m1 m2 m3 m4 rest amount pid s racc rentAcc eacc rent hsig hget
      hown hgr hpr hge hex
    unfold process_init_escrow_raw init_validate
    simp [hsig, Store.read, hget, hown, hgr, hpr, hge, hex]
  · intro m0 m1 m2 m3 m4 rest amount pid s racc rentAcc eacc rent einfo hsig
      hget hown hgr hpr hge hex hunch hini
    unfold process_init_escrow_raw init_validate
    simp [hsig, Store.read, hget, hown, hgr, hpr, hge, hex, hunch, hini]

/-- C8: every `InitEscrow` call that passes all preconditions persists an
escrow record with `is_initialized = true`, the initializer key from
position 0, the temp-token-account key from position 1, the receiving
account key from position 2, and exactly the instruction amount. -/
theorem init_escrow_populates_record
    (m0 m1 m2 m3 m4 : Meta) (rest : List Meta) (amount : Nat) (pid : Pubkey)
    (s s' : Store) (log : List TokenInstr)
    (h : process_init_escrow_raw (m0 :: m1 :: m2 :: m3 :: m4 :: rest)
      amount pid s = .success s' log) :
    ∃ acc, Store.get s' m3.key = some acc ∧
      acc.data = .escrowData ⟨true, m0.key, m1.key, m2.key, amount⟩ := by
  obtain ⟨ctx, hval, hrest, hsa, hlog⟩ := process_init_escrow_raw_success h
  obtain ⟨i, t, rcv, em, rm, rst, ea, ei⟩ := ctx
  obtain ⟨hshape, hsig, hrecv, hrent, hgesc, hunch, hini⟩ := init_validate_ok hval
  injection hshape with e0 hshape
  injection hshape with e1 hshape
  injection hshape with e2 hshape
  injection hshape with e3 hshape
  injection hshape with e4 e5
  subst e0 e1 e2 e3 e4
  have hg1 : Store.get (Store.set s m3.key
      ⟨ea.lamports, ea.owner, AccountData.escrowData
        ⟨true, m0.key, m1.key, m2.key, amount⟩⟩) m3.key =
      some ⟨ea.lamports, ea.owner, AccountData.escrowData
        ⟨true, m0.key, m1.key, m2.key, amount⟩⟩ :=
    Store.get_set_self _ _ _ _ hgesc
  exact applyTokenInstr_preserves_escrowData hsa hg1 rfl

/-- C3: in every successful `Exchange`, the first delegated transfer moves
exactly the stored record's `expected_amount` from the taker's sending
account (position 1) to the initializer's receiving account (position 5),
authorized by the taker — the amount comes from the persisted record, not
from the taker-supplied argument (the argument `amt` is unconstrained
here). -/
theorem exchange_first_transfer_uses_recorded_amount
    (m0 m1 m2 m3 m4 m5 m6 : Meta) (rest : List Meta) (amt : Nat)
    (pid : Pubkey) (s s' : Store) (log : List TokenInstr)
    (h : process_exchange_raw (m0 :: m1 :: m2 :: m3 :: m4 :: m5 :: m6 :: rest)
      amt pid s = .success s' log) :
    ∃ eacc einfo, Store.get s m6.key = some eacc ∧
      Escrow.unpack eacc.data = .ok einfo ∧
      log.head? = some (.transfer m1.key m5.key m0.key einfo.expected_amount) := by
  obtain ⟨ctx, s1, s2, s3, hval, hrest, h1, h2, h3, hc, hlog⟩ :=
    process_exchange_raw_success h
  obtain ⟨tk, ts, tr, tm, im, ir, em, tp, rst, tt, ei⟩ := ctx
  obtain ⟨hshape, hsig, htemp, hamt, hesc, hf1, hf2, hf3⟩ := exchange_validate_ok hval
  injection hshape with e0 hshape
  injection hshape with e1 hshape
  injection hshape with e2 hshape
  injection hshape with e3 hshape
  injection hshape with e4 hshape
  injection hshape with e5 hshape
  injection hshape with e6 e7
  subst e0 e1 e2 e3 e4 e5 e6
  obtain ⟨eacc, hge, hue⟩ := hesc
  refine ⟨eacc, ei, hge, hue, ?_⟩
  rw [hlog]
  rfl

/-- C4: in every successful `Exchange`, the second delegated transfer moves
the temporary holding account's entire balance as read at the start of the
call — which the passed validation forces to equal the taker-asserted
amount — from the holding account (position 3) to the taker's receiving
account (position 2), authorized by the derived address. -/
theorem exchange_second_transfer_moves_entire_balance
    (m0 m1 m2 m3 m4 m5 m6 : Meta) (rest : List Meta) (amt : Nat)
    (pid : Pubkey) (s s' : Store) (log : List TokenInstr)
    (h : process_exchange_raw (m0 :: m1 :: m2 :: m3 :: m4 :: m5 :: m6 :: rest)
      amt pid s = .success s' log) :
    ∃ acc tok, Store.get s m3.key = some acc ∧
      TokenAccount.unpack acc.data = .ok tok ∧
      tok.amount = amt ∧
      log[1]? = some (.transfer m3.key m2.key (find_program_address pid).1
        tok.amount) := by
  obtain ⟨ctx, s1, s2, s3, hval, hrest, h1, h2, h3, hc, hlog⟩ :=
    process_exchange_raw_success h
  obtain ⟨tk, ts, tr, tm, im, ir, em, tp, rst, tt, ei⟩ := ctx
  obtain ⟨hshape, hsig, htemp, hamt, hesc, hf1, hf2, hf3⟩ := exchange_validate_ok hval
  injection hshape with e0 hshape
  injection hshape with e1 hshape
  injection hshape with e2 hshape
  injection hshape with e3 hshape
  injection hshape with e4 hshape
  injection hshape with e5 hshape
  injection hshape with e6 e7
  subst e0 e1 e2 e3 e4 e5 e6
  obtain ⟨acc, hgt, hut⟩ := htemp
  refine ⟨acc, tt, hgt, hut, hamt.symm, ?_⟩
  rw [hlog]
  rfl

/-- C5: the lamport credit closing the escrow account uses checked 64-bit
addition: whenever the sum of the initializer's and the escrow account's
lamports is not representable the step fails with `amountOverflow`, and
whenever it succeeds the initializer's balance is the exact natural-number
sum (never reduced modulo `2 ^ 64`); a run failing with `amountOverflow`
leaves the caller-visible store unchanged. -/
theorem exchange_lamport_credit_checked :
    (∀ (s : Store) (im_key esc_key : Pubkey) (im esc : Account),
      Store.get s im_key = some im →
      Store.get s esc_key = some esc →
      ((u64Bound ≤ im.lamports + esc.lamports →
        credit_escrow_lamports s im_key esc_key = .error .amountOverflow) ∧
       (∀ s', credit_escrow_lamports s im_key esc_key = .ok s' →
        im.lamports + esc.lamports < u64Bound ∧
        (im_key ≠ esc_key →
          ∃ im', Store.get s' im_key = some im' ∧
            im'.lamports = im.lamports + esc.lamports)))) ∧
    (∀ (accounts : List Meta) (amt : Nat) (pid : Pubkey) (s s2 : Store)
      (log : List TokenInstr),
      process_exchange_raw accounts amt pid s = .failure .amountOverflow s2 log →
      process_exchange accounts amt pid s = (some .amountOverflow, s)) := by
  constructor
  · intro s im_key esc_key im esc hgi hge
    constructor
    · intro hov
      unfold credit_escrow_lamports checked_add
      have hlt : ¬ (im.lamports + esc.lamports < u64Bound) := by omega
      simp [Store.read, hgi, hge, hlt]
    · intro s' hok
      obtain ⟨im2, esc2, v, esc1, hgi2, hge2, hadd, hg1, hs'⟩ := credit_ok hok
      rw [hgi] at hgi2
      injection hgi2 with hgi2
      rw [hge] at hge2
      injection hge2 with hge2
      subst hgi2 hge2
      obtain ⟨hv, hlt⟩ := checked_add_some hadd
      subst hv
      refine ⟨hlt, ?_⟩
      intro hne
      subst hs'
      rw [Store.get_set_of_ne _ _ _ _ (Ne.symm hne)]
      exact ⟨_, Store.get_set_self _ _ _ _ hgi, rfl⟩
  · intro accounts amt pid s s2 log hraw
    unfold process_exchange
    rw [hraw]

/-- C9: once a record is initialized no operation rewrites its fields:
`InitEscrow` on a store whose escrow account holds an initialized record
fails before any write (store unchanged, no delegated call), and
`process_exchange` leaves every account holding an escrow record either
byte-identical or destroyed (data cleared) — never with an individual field
changed. -/
theorem escrow_record_immutable_until_destroyed :
    (∀ (m0 m1 m2 m3 m4 : Meta) (rest : List Meta) (amount : Nat)
      (pid : Pubkey) (s : Store) (acc : Account) (e0 : Escrow),
      Store.get s m3.key = some acc →
      Escrow.unpack_unchecked acc.data = .ok e0 →
      e0.is_initialized = true →
      ∃ err, process_init_escrow_raw (m0 :: m1 :: m2 :: m3 :: m4 :: rest)
        amount pid s = .failure err s []) ∧
    (∀ (accounts : List Meta) (amt : Nat) (pid : Pubkey) (s : Store)
      (k : Pubkey) (acc : Account) (e0 : Escrow),
      Store.get s k = some acc →
      acc.data = .escrowData e0 →
      ∃ acc', Store.get
          (RunResult.store (process_exchange_raw accounts amt pid s)) k
          = some acc' ∧
        (acc'.data = .escrowData e0 ∨ acc'.data = .empty)) := by
  constructor
  · intro m0 m1 m2 m3 m4 rest amount pid s acc e0 hget hunch hini
    cases hval : init_validate (m0 :: m1 :: m2 :: m3 :: m4 :: rest) s with
    | error e =>
      refine ⟨e, ?_⟩
      unfold process_init_escrow_raw
      rw [hval]
    | ok ctx =>
      exfalso
      obtain ⟨i, t, rcv, em, rm, rst, ea, ei⟩ := ctx
      obtain ⟨hshape, hsig, hrecv, hrent, hgesc, hunch2, hini2⟩ := init_validate_ok hval
      injection hshape with e0h hshape
      injection hshape with e1h hshape
      injection hshape with e2h hshape
      injection hshape with e3h hshape
      injection hshape with e4h e5h
      subst e3h
      rw [hget] at hgesc
      injection hgesc with hgesc
      subst hgesc
      rw [hunch] at hunch2
      injection hunch2 with hunch2
      subst hunch2
      rw [hini] at hini2
      exact Bool.noConfusion hini2
  · intro accounts amt pid s k acc e0 hget hdata
    unfold process_exchange_raw
    cases hval : exchange_validate accounts amt s with
    | error e => exact ⟨acc, hget, Or.inl hdata⟩
    | ok ctx =>
      dsimp only
      cases h1 : applyTokenInstr s (.transfer ctx.takers_sending.key
          ctx.initializers_receiving.key ctx.taker.key
          ctx.escrow_info.expected_amount) with
      | error e => exact ⟨acc, hget, Or.inl hdata⟩
      | ok s1 =>
        obtain ⟨a1, hg1, hd1⟩ := applyTokenInstr_preserves_escrowData h1 hget hdata
        dsimp only
        cases hr : ctx.rest with
        | nil => exact ⟨a1, hg1, Or.inl hd1⟩
        | cons pm r =>
          dsimp only
          cases h2 : applyTokenInstr s1 (.transfer ctx.temp.key
              ctx.takers_receiving.key (find_program_address pid).1
              ctx.tempTok.amount) with
          | error e => exact ⟨a1, hg1, Or.inl hd1⟩
          | ok s2 =>
            obtain ⟨a2, hg2, hd2⟩ := applyTokenInstr_preserves_escrowData h2 hg1 hd1
            dsimp only
            cases h3 : applyTokenInstr s2 (.closeAccount ctx.temp.key
                ctx.initializers_main.key (find_program_address pid).1) with
            | error e => exact ⟨a2, hg2, Or.inl hd2⟩
            | ok s3 =>
              obtain ⟨a3, hg3, hd3⟩ := applyTokenInstr_preserves_escrowData h3 hg2 hd2
              dsimp only
              cases hc : credit_escrow_lamports s3 ctx.initializers_main.key
                  ctx.escrow_meta.key with
              | error e => exact ⟨a3, hg3, Or.inl hd3⟩
              | ok s4 =>
                exact credit_preserves_escrowData hc hg3 hd3

/-- C1 (amended): a successful `process_exchange` requires the taker's
signature, a holding account that parses with live balance equal to the
asserted amount, and a record whose three stored addresses equal the
supplied keys; and whenever the validation prefix fails the call returns
that error with the store unchanged.  (The original iff is false: the
checks can hold while the call still fails, e.g. for a missing
signature.) -/
theorem exchange_success_characterization :
    (∀ (m0 m1 m2 m3 m4 m5 m6 : Meta) (rest : List Meta) (amt : Nat)
      (pid : Pubkey) (s s' : Store) (log : List TokenInstr),
      process_exchange_raw (m0 :: m1 :: m2 :: m3 :: m4 :: m5 :: m6 :: rest)
        amt pid s = .success s' log →
      m0.is_signer = true ∧
      (∃ acc tok, Store.get s m3.key = some acc ∧
        TokenAccount.unpack acc.data = .ok tok ∧ amt = tok.amount) ∧
      (∃ eacc einfo, Store.get s m6.key = some eacc ∧
        Escrow.unpack eacc.data = .ok einfo ∧
        einfo.temp_token_account_pubkey = m3.key ∧
        einfo.initializer_pubkey = m4.key ∧
        einfo.initializer_token_to_receive_account_pubkey = m5.key)) ∧
    (∀ (accounts : List Meta) (amt : Nat) (pid : Pubkey) (s : Store)
      (e : Err),
      exchange_validate accounts amt s = .error e →
      process_exchange accounts amt pid s = (some e, s)) := by
  constructor
  · intro m0 m1 m2 m3 m4 m5 m6 rest amt pid s s' log h
    obtain ⟨ctx, s1, s2, s3, hval, hrest, h1, h2, h3, hc, hlog⟩ :=
      process_exchange_raw_success h
    obtain ⟨tk, ts, tr, tm, im, ir, em, tp, rst, tt, ei⟩ := ctx
    obtain ⟨hshape, hsig, htemp, hamt, hesc, hf1, hf2, hf3⟩ :=
      exchange_validate_ok hval
    injection hshape with e0 hshape
    injection hshape with e1 hshape
    injection hshape with e2 hshape
    injection hshape with e3 hshape
    injection hshape with e4 hshape
    injection hshape with e5 hshape
    injection hshape with e6 e7
    subst e0 e1 e2 e3 e4 e5 e6
    refine ⟨hsig, ?_, ?_⟩
    · obtain ⟨acc, hgt, hut⟩ := htemp
      exact ⟨acc, tt, hgt, hut, hamt⟩
    · obtain ⟨eacc, hge, hue⟩ := hesc
      exact ⟨eacc, ei, hge, hue, hf1, hf2, hf3⟩
  · intro accounts amt pid s e h
    unfold process_exchange process_exchange_raw
    rw [h]

/-- C2 (amended): after every successful `Exchange` on distinct accounts,
the taker's receiving account gains exactly the holding account's pre-call
balance (the X tokens), and the initializer's receiving account gains
exactly the record's `expected_amount` (the Y tokens). -/
theorem exchange_receiving_accounts_gain
    (m0 m1 m2 m3 m4 m5 m6 : Meta) (rest : List Meta) (amt : Nat)
    (pid : Pubkey) (s s' : Store) (log : List TokenInstr)
    (hne12 : m1.key ≠ m2.key) (hne15 : m1.key ≠ m5.key)
    (hne23 : m2.key ≠ m3.key) (hne24 : m2.key ≠ m4.key)
    (hne25 : m2.key ≠ m5.key) (hne26 : m2.key ≠ m6.key)
    (hne35 : m3.key ≠ m5.key) (hne45 : m4.key ≠ m5.key)
    (hne56 : m5.key ≠ m6.key)
    (h : process_exchange_raw (m0 :: m1 :: m2 :: m3 :: m4 :: m5 :: m6 :: rest)
      amt pid s = .success s' log) :
    ∃ eacc einfo tAcc tTok rAcc rTok iAcc iTok,
      Store.get s m6.key = some eacc ∧
      Escrow.unpack eacc.data = .ok einfo ∧
      Store.get s m3.key = some tAcc ∧
      TokenAccount.unpack tAcc.data = .ok tTok ∧
      Store.get s m2.key = some rAcc ∧
      TokenAccount.unpack rAcc.data = .ok rTok ∧
      Store.get s m5.key = some iAcc ∧
      TokenAccount.unpack iAcc.data = .ok iTok ∧
      (∃ rAcc', Store.get s' m2.key = some rAcc' ∧
        rAcc'.data = .token (rTok.amount + tTok.amount) rTok.owner) ∧
      (∃ iAcc', Store.get s' m5.key = some iAcc' ∧
        iAcc'.data = .token (iTok.amount + einfo.expected_amount) iTok.owner) := by
  obtain ⟨ctx, s1, s2, s3, hval, hrest, h1, h2, h3, hc, hlog⟩ :=
    process_exchange_raw_success h
  obtain ⟨tk, ts, tr, tm, im, ir, em, tp, rst, tt, ei⟩ := ctx
  obtain ⟨hshape, hsig, htemp, hamt, hesc, hf1, hf2, hf3⟩ :=
    exchange_validate_ok hval
  injection hshape with e0 hshape
  injection hshape with e1 hshape
  injection hshape with e2 hshape
  injection hshape with e3 hshape
  injection hshape with e4 hshape
  injection hshape with e5 hshape
  injection hshape with e6 e7
  subst e0 e1 e2 e3 e4 e5 e6
  obtain ⟨tAcc, hgt, hut⟩ := htemp
  obtain ⟨eacc, hge, hue⟩ := hesc
  obtain ⟨iAcc, iTok, hgi, hui, hgi1⟩ := transfer_ok_get_dest h1 hne15
  have hgi2 : Store.get s2 m5.key = Store.get s1 m5.key :=
    transfer_ok_get_other h2 (Ne.symm hne35) (Ne.symm hne25)
  have hgi3 : Store.get s3 m5.key = Store.get s2 m5.key :=
    close_ok_get_other h3 (Ne.symm hne35) (Ne.symm hne45)
  have hgi4 : Store.get s' m5.key = Store.get s3 m5.key :=
    credit_ok_get_other hc (Ne.symm hne45) hne56
  have hgr1 : Store.get s1 m2.key = Store.get s m2.key :=
    transfer_ok_get_other h1 (Ne.symm hne12) hne25
  obtain ⟨rAcc, rTok, hgr, hur, hgr2⟩ := transfer_ok_get_dest h2 (Ne.symm hne23)
  rw [hgr1] at hgr
  have hgr3 : Store.get s3 m2.key = Store.get s2 m2.key :=
    close_ok_get_other h3 hne23 hne24
  have hgr4 : Store.get s' m2.key = Store.get s3 m2.key :=
    credit_ok_get_other hc hne24 hne26
  refine ⟨eacc, ei, tAcc, tt, rAcc, rTok, iAcc, iTok, hge, hue, hgt, hut,
    hgr, hur, hgi, hui, ?_, ?_⟩
  · exact ⟨⟨rAcc.lamports, rAcc.owner, .token (rTok.amount + tt.amount) rTok.owner⟩,
      by rw [hgr4, hgr3]; exact hgr2, rfl⟩
  · exact ⟨⟨iAcc.lamports, iAcc.owner, .token (iTok.amount + ei.expected_amount) iTok.owner⟩,
      by rw [hgi4, hgi3, hgi2]; exact hgi1, rfl⟩

/-- C1 counterexample: on the example store all three field-match checks
hold and the asserted amount equals the live balance, yet with the taker's
signature missing the call returns an error — so success is not equivalent
to those checks alone. -/
theorem exchange_success_iff_checks_cex :
    (∃ acc tok, Store.get exStore 4 = some acc ∧
      TokenAccount.unpack acc.data = .ok tok ∧ tok.amount = 3) ∧
    (∃ eacc einfo, Store.get exStore 7 = some eacc ∧
      Escrow.unpack eacc.data = .ok einfo ∧
      einfo.temp_token_account_pubkey = 4 ∧
      einfo.initializer_pubkey = 5 ∧
      einfo.initializer_token_to_receive_account_pubkey = 6) ∧
    (process_exchange exAccountsNoSig 3 100 exStore).1 =
      some .missingRequiredSignature := by
  refine ⟨⟨_, _, rfl, rfl, rfl⟩, ⟨_, _, rfl, rfl, rfl, rfl, rfl⟩, by decide⟩

/-- C1 (amended) witness at the example exchange. -/
theorem exchange_success_characterization_witness :
    ((⟨1, true⟩ : Meta).is_signer = true) ∧
    (∃ acc tok, Store.get exStore 4 = some acc ∧
      TokenAccount.unpack acc.data = .ok tok ∧ 3 = tok.amount) ∧
    (∃ eacc einfo, Store.get exStore 7 = some eacc ∧
      Escrow.unpack eacc.data = .ok einfo ∧
      einfo.temp_token_account_pubkey = 4 ∧
      einfo.initializer_pubkey = 5 ∧
      einfo.initializer_token_to_receive_account_pubkey = 6) :=
  exchange_success_characterization.1 ⟨1, true⟩ ⟨2, false⟩ ⟨3, false⟩
    ⟨4, false⟩ ⟨5, false⟩ ⟨6, false⟩ ⟨7, false⟩
    [⟨8, false⟩, ⟨9, false⟩] 3 100 exStore exFinalStore exLog (by decide)

/-- C2 counterexample: a successful exchange whose record demands 5 Y
tokens, while the taker's receiving account goes from 0 to 3 (the holding
account's balance) — it does not gain `expected_amount`. -/
theorem exchange_taker_gain_cex :
    process_exchange exAccounts 3 100 exStore = (none, exFinalStore) ∧
    Store.get exStore 7 = some ⟨30, 100, .escrowData ⟨true, 5, 4, 6, 5⟩⟩ ∧
    Store.get exStore 3 = some ⟨10, spl_token_id, .token 0 1⟩ ∧
    Store.get exFinalStore 3 = some ⟨10, spl_token_id, .token 3 1⟩ ∧
    (3 : Nat) ≠ 0 + 5 := by
  refine ⟨by decide, rfl, rfl, rfl, by decide⟩

/-- C2 (amended) witness at the example exchange. -/
theorem exchange_receiving_accounts_gain_witness :
    ∃ eacc einfo tAcc tTok rAcc rTok iAcc iTok,
      Store.get exStore 7 = some eacc ∧
      Escrow.unpack eacc.data = .ok einfo ∧
      Store.get exStore 4 = some tAcc ∧
      TokenAccount.unpack tAcc.data = .ok tTok ∧
      Store.get exStore 3 = some rAcc ∧
      TokenAccount.unpack rAcc.data = .ok rTok ∧
      Store.get exStore 6 = some iAcc ∧
      TokenAccount.unpack iAcc.data = .ok iTok ∧
      (∃ rAcc', Store.get exFinalStore 3 = some rAcc' ∧
        rAcc'.data = .token (rTok.amount + tTok.amount) rTok.owner) ∧
      (∃ iAcc', Store.get exFinalStore 6 = some iAcc' ∧
        iAcc'.data = .token (iTok.amount + einfo.expected_amount) iTok.owner) :=
  exchange_receiving_accounts_gain ⟨1, true⟩ ⟨2, false⟩ ⟨3, false⟩
    ⟨4, false⟩ ⟨5, false⟩ ⟨6, false⟩ ⟨7, false⟩
    [⟨8, false⟩, ⟨9, false⟩] 3 100 exStore exFinalStore exLog
    (by decide) (by decide) (by decide) (by decide) (by decide) (by decide)
    (by decide) (by decide) (by decide) (by decide)

/-- C3 witness: in the example exchange the taker asserted 3, yet the first
delegated transfer carries the record's 5. -/
theorem exchange_first_transfer_uses_recorded_amount_witness :
    ∃ eacc einfo, Store.get exStore 7 = some eacc ∧
      Escrow.unpack eacc.data = .ok einfo ∧
      exLog.head? = some (.transfer 2 6 1 einfo.expected_amount) :=
  exchange_first_transfer_uses_recorded_amount ⟨1, true⟩ ⟨2, false⟩
    ⟨3, false⟩ ⟨4, false⟩ ⟨5, false⟩ ⟨6, false⟩ ⟨7, false⟩
    [⟨8, false⟩, ⟨9, false⟩] 3 100 exStore exFinalStore exLog (by decide)

/-- C4 witness: in the example exchange the second delegated transfer moves
the holding account's whole balance of 3 to the taker's receiving account,
authorized by the derived address. -/
theorem exchange_second_transfer_moves_entire_balance_witness :
    ∃ acc tok, Store.get exStore 4 = some acc ∧
      TokenAccount.unpack acc.data = .ok tok ∧
      tok.amount = 3 ∧
      exLog[1]? = some (.transfer 4 3 (find_program_address 100).1 tok.amount) :=
  exchange_second_transfer_moves_entire_balance ⟨1, true⟩ ⟨2, false⟩
    ⟨3, false⟩ ⟨4, false⟩ ⟨5, false⟩ ⟨6, false⟩ ⟨7, false⟩
    [⟨8, false⟩, ⟨9, false⟩] 3 100 exStore exFinalStore exLog (by decide)

/-- C5 witness: crediting `2 ^ 64 - 1` lamports with 5 more fails closed
with `amountOverflow`. -/
theorem exchange_lamport_credit_checked_witness :
    credit_escrow_lamports ovStore 20 21 = .error .amountOverflow :=
  ((exchange_lamport_credit_checked.1 ovStore 20 21
    ⟨u64Bound - 1, 0, .empty⟩ ⟨5, 100, .escrowData ⟨true, 1, 2, 3, 4⟩⟩
    rfl rfl).1) (by decide)

/-- C6 witness: asserting 4 against a live balance of 3 aborts with
`expectedAmountMismatch`, before any write. -/
theorem exchange_validation_order_witness :
    process_exchange_raw exAccounts 4 100 exStore =
      .failure .expectedAmountMismatch exStore [] :=
  exchange_validation_order.2.1 ⟨1, true⟩ ⟨2, false⟩ ⟨3, false⟩
    ⟨4, false⟩
    [⟨5, false⟩, ⟨6, false⟩, ⟨7, false⟩, ⟨8, false⟩, ⟨9, false⟩]
    4 100 exStore ⟨20, spl_token_id, .token 3 exPda⟩ ⟨3, exPda⟩
    rfl rfl rfl (by decide)

/-- C7 witness: init against an already-initialized record aborts with
`accountAlreadyInitialized`. -/
theorem init_escrow_validation_order_witness :
    process_init_escrow_raw exInitAccounts 5 100 exInitStoreInited =
      .failure .accountAlreadyInitialized exInitStoreInited [] :=
  init_escrow_validation_order.2.2.2 ⟨10, true⟩ ⟨11, false⟩ ⟨12, false⟩
    ⟨13, false⟩ ⟨14, false⟩ [⟨15, false⟩] 5 100 exInitStoreInited
    ⟨10, spl_token_id, .token 0 10⟩ ⟨1, 0, .rentSysvar ⟨2⟩⟩
    ⟨300, 100, .escrowData ⟨true, 10, 11, 12, 5⟩⟩ ⟨2⟩
    ⟨true, 10, 11, 12, 5⟩ rfl rfl rfl rfl rfl rfl rfl rfl rfl

/-- C8 witness: the example init persists exactly the record built from the
supplied keys and amount. -/
theorem init_escrow_populates_record_witness :
    ∃ acc, Store.get exInitFinalStore 13 = some acc ∧
      acc.data = .escrowData ⟨true, 10, 11, 12, 5⟩ :=
  init_escrow_populates_record ⟨10, true⟩ ⟨11, false⟩ ⟨12, false⟩
    ⟨13, false⟩ ⟨14, false⟩ [⟨15, false⟩] 5 100 exInitStore
    exInitFinalStore exInitLog (by decide)

/-- C9 witness: init on a store whose record is already initialized fails
with the store untouched and no delegated call. -/
theorem escrow_record_immutable_until_destroyed_witness :
    ∃ err, process_init_escrow_raw exInitAccounts 5 100
      exInitStoreInited = .failure err exInitStoreInited [] :=
  escrow_record_immutable_until_destroyed.1 ⟨10, true⟩ ⟨11, false⟩
    ⟨12, false⟩ ⟨13, false⟩ ⟨14, false⟩ [⟨15, false⟩] 5 100
    exInitStoreInited ⟨300, 100, .escrowData ⟨true, 10, 11, 12, 5⟩⟩
    ⟨true, 10, 11, 12, 5⟩ rfl rfl rfl

/-- C10 witness: a missing taker signature leaves the store byte-identical
and the delegated-call log empty. -/
theorem exchange_validation_failure_no_effects_witness :
    process_exchange_raw exAccountsNoSig 3 100 exStore =
      .failure .missingRequiredSignature exStore [] ∧
    process_exchange exAccountsNoSig 3 100 exStore =
      (some .missingRequiredSignature, exStore) :=
  exchange_validation_failure_no_effects exAccountsNoSig 3 100 exStore
    .missingRequiredSignature (by decide)

end EscrowSpec
